import Mathlib

/-!
Verification of the async file-picker overlay
(`dot_pi/agent/extensions/file-picker.ts`).

The TypeScript component is shallowly embedded below: pure helpers become
Lean functions; the stateful overlay becomes explicit state passing, with
one Lean function per synchronous mutation block of the source (a method
body, or the `.then` / `.catch` completion callback of an asynchronous
operation, which in Node's single-threaded event loop runs atomically).
Byte buffers are `List Nat`; JavaScript numbers holding integers are `Int`
(with `Int.fdiv` for `Math.floor` of a half, and `Int.tmod` for the
truncating `%` operator); TypeScript `undefined` / `null` become `Option`.

External library calls (`highlightCode`, `getLanguageFromPath`,
`path.basename`, `path.dirname`) are not part of this repository; where a
claim does not depend on their internals they are kept as parameters of
the embedding, otherwise a simple model is given and documented.
-/

namespace FilePicker

/-- `MAX_FILE_SIZE` (file-picker.ts line 25): 10 MB preview read cap. -/
def MAX_FILE_SIZE : Nat := 10 * 1024 * 1024

/-- `MAX_RESULTS` (line 26): cap on the number of search results. -/
def MAX_RESULTS : Nat := 200

/-- A parsed result entry (`interface FileItem`, lines 138-143). -/
structure FileItem where
  path : String
  name : String
  dir : String
  isDirectory : Bool
deriving DecidableEq, Repr

/-- Model of Node's `path.basename` (external library) for the
slash-separated, no-trailing-slash paths produced in `parseFiles`:
the segment after the last `/`, or the whole string if there is none. -/
def basename (p : String) : String :=
  match (p.splitOn "/").reverse with
  | [] => p
  | x :: _ => x

/-- Model of Node's `path.dirname` (external library) for the same class
of paths: everything before the last `/`, or `"."` if there is none. -/
def dirname (p : String) : String :=
  match (p.splitOn "/").reverse with
  | [] => "."
  | [_] => "."
  | _ :: rest => String.intercalate "/" rest.reverse

/-- `parseFiles` (lines 145-156): turn backend output lines into items. -/
def parseFiles (paths : List String) : List FileItem :=
  paths.map (fun p =>
    let isDir := p.endsWith "/"
    let clean := if isDir then (p.dropRight 1) else p
    { path := p
      name := basename clean ++ (if isDir then "/" else "")
      dir := dirname clean
      isDirectory := isDir })

/-- `isBinary` (lines 169-174): scan the first `min(buf.length, 512)`
bytes for a null byte. -/
def isBinary (buf : List Nat) : Bool :=
  (buf.take 512).any (fun b => b == 0)

/-- Errors a preview read can fail with: `EISDIR`, the synthetic
`ETOOLARGE` thrown by `readFileChecked`, or any other `Error` carrying a
message (`err?.message ?? "read error"` collapses a missing message). -/
inductive ReadError where
  | isDir
  | tooLarge
  | other (msg : String)
deriving DecidableEq, Repr

/-- `readFileChecked` (lines 53-59): stat the file, reject with
`ETOOLARGE` when `size > maxSize`, otherwise read the whole file. A file
is modelled by its byte content, whose length is the stat size. -/
def readFileChecked (file : List Nat) (maxSize : Nat) : Except ReadError (List Nat) :=
  if file.length > maxSize then Except.error ReadError.tooLarge
  else Except.ok file

/-- `interface Layout` (lines 176-182). -/
structure Layout where
  leftW : Int
  rightW : Int
  listRows : Nat
  totalRows : Nat
  previewContentRows : Nat
deriving DecidableEq, Repr

/-- `FilePickerOverlay.computeLayout` (lines 224-236). `Math.floor(innerW
* 0.5)` is exact floor division by two (every `n * 0.5` is an exact
double), hence `Int.fdiv innerW 2`. -/
def computeLayout (width : Int) : Layout :=
  let innerW := width - 2
  let leftW := Int.fdiv innerW 2
  let rightW := innerW - leftW - 1
  let listRows := 18
  let headerRows := 4
  let footerRows := 3
  let totalRows := headerRows + listRows + footerRows
  let previewContentRows := totalRows - 2
  { leftW := leftW, rightW := rightW, listRows := listRows,
    totalRows := totalRows, previewContentRows := previewContentRows }

/-- The visible-window computation of `renderLeftPanel` (lines 441-448):
`visible = min(listRows, total)`, `start = max(0, min(selected -
floor(visible / 2), total - visible))`, `end = min(start + visible,
total)`. Returns `(visible, start, end)`. -/
def listWindow (listRows : Nat) (total : Nat) (selectedIndex : Int) : Int × Int × Int :=
  let visible : Int := min (listRows : Int) (total : Int)
  let halfVisible := Int.fdiv visible 2
  let start := max 0 (min (selectedIndex - halfVisible) ((total : Int) - visible))
  let stop := min (start + visible) (total : Int)
  (visible, start, stop)

/-- State of `runSearch`'s result collection (lines 96-117): the lines
collected so far, the `done` flag, and whether `kill()` has been invoked
— `kill()` (lines 90-93) terminates BOTH pipeline stages, so one flag per
stage, always set together. -/
structure CollectState where
  lines : List String
  done : Bool
  fdKilled : Bool
  fzfKilled : Bool
deriving DecidableEq, Repr

/-- The initial collection state: no lines, not done, nothing killed. -/
def collectInit : CollectState :=
  { lines := [], done := false, fdKilled := false, fzfKilled := false }

/-- The readline `"line"` handler (lines 102-111): skip when done or on
an empty line; push the line; once `MAX_RESULTS` lines are collected, set
`done`, call `kill()` (terminating both stages) and resolve. -/
def onLine (s : CollectState) (line : String) : CollectState :=
  if s.done || line = "" then s
  else
    let lines := s.lines ++ [line]
    if MAX_RESULTS ≤ lines.length then
      { lines := lines, done := true, fdKilled := true, fzfKilled := true }
    else
      { s with lines := lines }

/-- Feeding a whole stream of lines through the `"line"` handler; the
promise resolves with `(collectRun input).lines` either at the early-exit
point or on the readline `"close"` event (lines 113-117). -/
def collectRun (input : List String) : CollectState :=
  input.foldl onLine collectInit

/-- Completion of a whole `runSearch` call (lines 66-136), as a function
of which executables are present on `PATH`, the lines `fd` would emit,
and the external `fzf --filter` behaviour (kept as a parameter
`fzfFilter query inputLines`).  Branches, from the source's event wiring:
* empty query: `fd` alone is the source; if `fd` is absent its `"error"`
  event fires with a spawn-ENOENT error and (no `fzf` in play, line
  126-130) the promise rejects; otherwise the collected `fd` lines
  resolve (fd also self-caps via `--max-results`, so its output is
  `fdOutput.take MAX_RESULTS` with `fdOutput` the uncapped listing).
* non-empty query with `fzf` absent: `fzf` is the source and its spawn
  ENOENT fires `source.on("error")` (lines 120-124): reject.
* non-empty query, `fzf` present, `fd` absent: `fd`'s `"error"` handler
  only closes `fzf`'s stdin (line 86) and the rejection handler at line
  127 returns because `fzf` is set — `fzf` filters an empty stream,
  emits nothing, and the promise RESOLVES with the empty collection.
* both present: the collected output of `fzf --filter query` over the
  full listing resolves. -/
def runSearchOutcome (fdPresent fzfPresent : Bool) (query : String)
    (fdOutput : List String) (fzfFilter : String → List String → List String) :
    Except String (List String) :=
  if query = "" then
    if fdPresent then Except.ok (collectRun (fdOutput.take MAX_RESULTS)).lines
    else Except.error "spawn fd ENOENT"
  else
    if fzfPresent = false then Except.error "spawn fzf ENOENT"
    else if fdPresent = false then
      Except.ok (collectRun (fzfFilter query [])).lines
    else Except.ok (collectRun (fzfFilter query fdOutput)).lines

/-- Substring test on strings, used to model JavaScript's
`String.prototype.includes`. -/
def strIncludes (hay needle : String) : Bool :=
  decide (needle.data <:+: hay.data)

/-- The error-message mapping of `search`'s `.catch` (lines 262-272):
an ENOENT-bearing message becomes the distinct tooling message, anything
else a generic `Error: ...` string. -/
def searchErrorMessage (msg : String) : String :=
  if strIncludes msg "ENOENT" then "fd/fzf not found -- install both"
  else "Error: " ++ msg

/-- Preview-side state of the overlay (fields of `FilePickerOverlay`,
lines 198-202). -/
structure PreviewState where
  previewPath : Option String
  previewLines : List String
  previewLoading : Bool
  previewError : Option String
  previewScroll : Nat
deriving DecidableEq, Repr

/-- The synchronous body of `loadPreview` (lines 282-298), run with the
currently selected item: returns the updated preview state together with
the path captured by the asynchronous read it starts, if any. Branches:
no item / directory item → placeholder state, no read; same path as the
current preview → no-op; otherwise mark loading (keeping the previous
lines) and start a read for the item's path. -/
def loadPreviewStart (item : Option FileItem) (s : PreviewState) :
    PreviewState × Option String :=
  match item with
  | none =>
      ({ previewPath := none, previewLines := [], previewError := none,
         previewLoading := false, previewScroll := 0 }, none)
  | some it =>
      if it.isDirectory then
        ({ previewPath := some it.path, previewLines := ["", "  (directory)"],
           previewError := none, previewLoading := false, previewScroll := 0 }, none)
      else if some it.path = s.previewPath then (s, none)
      else
        ({ s with
           previewPath := some it.path
           previewLoading := true
           previewError := none
           previewScroll := 0 }, some it.path)

/-- The `.then` completion of `loadPreview`'s read (lines 301-313) for a
read of `path` that returned bytes `buf`. `decode path buf` stands for
the external `highlightCode(buf.toString("utf-8"),
getLanguageFromPath(path))`. The first guard is the staleness check
`if (this.previewPath !== path) return`. -/
def completePreviewOk (decode : String → List Nat → List String)
    (path : String) (buf : List Nat) (s : PreviewState) : PreviewState :=
  if s.previewPath ≠ some path then s
  else if isBinary buf then
    { s with
      previewLines := ["", "  (binary file)"]
      previewLoading := false }
  else
    { s with
      previewLines := decode path buf
      previewLoading := false }

/-- The `.catch` completion of `loadPreview`'s read (lines 314-323),
with the same staleness guard. -/
def completePreviewErr (path : String) (e : ReadError) (s : PreviewState) :
    PreviewState :=
  if s.previewPath ≠ some path then s
  else
    { s with
      previewLoading := false
      previewError := some (match e with
        | ReadError.isDir => "(directory)"
        | ReadError.tooLarge => "(file too large)"
        | ReadError.other msg => msg)
      previewLines := [] }

/-- List-side state of the overlay (fields at lines 186-195), plus the
search-token bookkeeping: `currentSearch` numbers the `AbortController`
created by the latest `search()` call. Every `search()` call aborts the
previous controller before minting a new one (lines 246-247), and
controllers are never un-aborted, so at any point a run's signal is
aborted exactly when its token differs from `currentSearch`. -/
structure OverlayState where
  results : List FileItem
  selectedIndex : Int
  loading : Bool
  error : Option String
  currentSearch : Nat
deriving DecidableEq, Repr

/-- Whether the signal of the run with token `t` is aborted in state
`s`: true iff a later `search()` call has superseded it. -/
def tokenAborted (s : OverlayState) (t : Nat) : Bool :=
  t ≠ s.currentSearch

/-- The synchronous body of `search()` (lines 245-251): abort the
current controller, mint a new one, set `loading`. The token of the run
it starts is the new `currentSearch`. -/
def issueSearch (s : OverlayState) : OverlayState :=
  { s with currentSearch := s.currentSearch + 1, loading := true }

/-- The `.then` completion of `search()`'s run with token `t` (lines
253-261): discarded when the signal is aborted; otherwise install the
parsed results, reset the selection, clear loading and error. (The
follow-up `loadPreview()` and render request touch no field of this
state.) -/
def searchThen (t : Nat) (paths : List String) (s : OverlayState) : OverlayState :=
  if tokenAborted s t then s
  else
    { s with
      results := parseFiles paths
      selectedIndex := 0
      loading := false
      error := none }

/-- The `.catch` completion of `search()`'s run with token `t` (lines
262-272): discarded when the signal is aborted; otherwise clear loading
and install the mapped error message. -/
def searchCatchStep (t : Nat) (msg : String) (s : OverlayState) : OverlayState :=
  if tokenAborted s t then s
  else
    { s with
      loading := false
      error := some (searchErrorMessage msg) }

/-- `moveSelection` (lines 328-332): no-op on an empty result list,
otherwise wrap by the truncating JavaScript `%` — whose dividend
`selectedIndex + delta + length` is what `Int.tmod` receives. (The
follow-up `loadPreview()` touches no field of this state.) -/
def moveSelection (delta : Int) (s : OverlayState) : OverlayState :=
  if s.results.length = 0 then s
  else
    { s with
      selectedIndex :=
        Int.tmod (s.selectedIndex + delta + (s.results.length : Int))
          (s.results.length : Int) }

/-- What a close branch of `handleInput` hands outward: the value passed
to the `done` callback, and whether `cleanup()` (clear the debounce
timer, abort the current search) ran before it. -/
structure CloseAction where
  doneValue : Option String
  cleanedUp : Bool
deriving DecidableEq, Repr

/-- The confirm branch of `handleInput` (lines 352-357): look up
`results[selectedIndex]` (out-of-range indexing yields `undefined`, not
an exception), run `cleanup()`, and complete with `item?.path ?? null`. -/
def confirmAction (s : OverlayState) : CloseAction :=
  let item := if 0 ≤ s.selectedIndex then s.results.get? s.selectedIndex.toNat else none
  { doneValue := item.map FileItem.path, cleanedUp := true }

/-- The cancel branch of `handleInput` (lines 345-349): run `cleanup()`
and complete with `null`. -/
def cancelAction : CloseAction :=
  { doneValue := none, cleanedUp := true }

/-! ## Theorems -/

/-- C7: for every overlay width `w`, the computed layout satisfies
`leftW = floor((w - 2) / 2)`, `rightW = (w - 2) - leftW - 1`, and hence
`leftW + 1 + rightW = w - 2`; `computeLayout` is a pure function of the
width argument. -/
theorem c7_layout_geometry (w : Int) :
    (computeLayout w).leftW = Int.fdiv (w - 2) 2 ∧
    (computeLayout w).rightW = (w - 2) - (computeLayout w).leftW - 1 ∧
    (computeLayout w).leftW + 1 + (computeLayout w).rightW = w - 2 := by
  refine ⟨rfl, rfl, ?_⟩
  show Int.fdiv (w - 2) 2 + 1 + ((w - 2) - Int.fdiv (w - 2) 2 - 1) = w - 2
  ring

/-- C5: a file whose size is exactly `MAX_FILE_SIZE` passes the checked
read and its full content is returned; a file at least one byte over the
cap fails with the distinguished too-large error and no content is
returned. -/
theorem c5_size_cap_boundary (file : List Nat) :
    (file.length = MAX_FILE_SIZE →
      readFileChecked file MAX_FILE_SIZE = Except.ok file) ∧
    (MAX_FILE_SIZE + 1 ≤ file.length →
      readFileChecked file MAX_FILE_SIZE = Except.error ReadError.tooLarge) := by
  constructor
  · intro h
    simp only [readFileChecked, h]
    simp
  · intro h
    simp only [readFileChecked]
    rw [if_pos (by omega)]

/-- Witness for C5 at concrete files of size exactly `MAX_FILE_SIZE` and
`MAX_FILE_SIZE + 1`. -/
theorem c5_size_cap_boundary_witness :
    readFileChecked (List.replicate MAX_FILE_SIZE 7) MAX_FILE_SIZE
        = Except.ok (List.replicate MAX_FILE_SIZE 7) ∧
    readFileChecked (List.replicate (MAX_FILE_SIZE + 1) 7) MAX_FILE_SIZE
        = Except.error ReadError.tooLarge := by
  constructor
  · exact (c5_size_cap_boundary (List.replicate MAX_FILE_SIZE 7)).1 (by simp)
  · exact (c5_size_cap_boundary (List.replicate (MAX_FILE_SIZE + 1) 7)).2 (by simp)

/-- C10: pressing confirm with an empty result list (or with a selected
index that has no corresponding entry) completes the overlay with `null`
— exactly the value the cancel branch passes — rather than failing, and
both branches run `cleanup()` first. -/
theorem c10_confirm_empty_safe (s : OverlayState) :
    (s.results = [] → confirmAction s = cancelAction) ∧
    ((s.results.length : Int) ≤ s.selectedIndex ∨ s.selectedIndex < 0 →
      confirmAction s = cancelAction) ∧
    (confirmAction s).cleanedUp = true ∧
    cancelAction.cleanedUp = true := by
  refine ⟨?_, ?_, rfl, rfl⟩
  · intro h
    simp [confirmAction, cancelAction, h]
  · intro h
    rcases h with h | h
    · unfold confirmAction cancelAction
      rcases le_or_lt 0 s.selectedIndex with hpos | hneg
      · have : s.results.length ≤ s.selectedIndex.toNat := by omega
        simp [hpos, List.get?_eq_none.2 this]
        omega
      · simp [not_le.2 hneg]
    · unfold confirmAction cancelAction
      simp [not_le.2 h]

/-- Witness for C10 at a concrete state with an empty result list. -/
theorem c10_confirm_empty_safe_witness :
    confirmAction
        { results := []
          selectedIndex := 0
          loading := false
          error := none
          currentSearch := 0 } = cancelAction :=
  (c10_confirm_empty_safe
    { results := []
      selectedIndex := 0
      loading := false
      error := none
      currentSearch := 0 }).1 rfl

/-- C2: issuing a second search aborts the first run's signal; the first
run's completion (success or failure) then never mutates the overlay
state, in either completion order, and the final state carries exactly
the second run's results with the selection reset, loading cleared and
error cleared. -/
theorem c2_search_supersede (s0 : OverlayState) (p1 p2 : List String) (m1 : String) :
    tokenAborted (issueSearch (issueSearch s0)) (issueSearch s0).currentSearch = true ∧
    searchThen (issueSearch s0).currentSearch p1 (issueSearch (issueSearch s0))
      = issueSearch (issueSearch s0) ∧
    searchCatchStep (issueSearch s0).currentSearch m1 (issueSearch (issueSearch s0))
      = issueSearch (issueSearch s0) ∧
    searchThen (issueSearch s0).currentSearch p1
        (searchThen (issueSearch (issueSearch s0)).currentSearch p2
          (issueSearch (issueSearch s0)))
      = searchThen (issueSearch (issueSearch s0)).currentSearch p2
          (issueSearch (issueSearch s0)) ∧
    searchCatchStep (issueSearch s0).currentSearch m1
        (searchThen (issueSearch (issueSearch s0)).currentSearch p2
          (issueSearch (issueSearch s0)))
      = searchThen (issueSearch (issueSearch s0)).currentSearch p2
          (issueSearch (issueSearch s0)) ∧
    (searchThen (issueSearch (issueSearch s0)).currentSearch p2
        (issueSearch (issueSearch s0))).results = parseFiles p2 ∧
    (searchThen (issueSearch (issueSearch s0)).currentSearch p2
        (issueSearch (issueSearch s0))).selectedIndex = 0 ∧
    (searchThen (issueSearch (issueSearch s0)).currentSearch p2
        (issueSearch (issueSearch s0))).loading = false ∧
    (searchThen (issueSearch (issueSearch s0)).currentSearch p2
        (issueSearch (issueSearch s0))).error = none := by
  have hne : s0.currentSearch + 1 ≠ s0.currentSearch + 1 + 1 := by omega
  refine ⟨?_, ?_, ?_, ?_, ?_, ?_, ?_, ?_, ?_⟩ <;>
    simp [issueSearch, searchThen, searchCatchStep, tokenAborted, hne]

/-- C6: the binary sniff is true exactly when a null byte occurs among
the first `min(length, 512)` bytes; a zero-byte buffer is classified as
text and a fresh preview completion for it takes the decode-as-text
branch, while a buffer with a null byte in the sniffed prefix renders
the binary placeholder instead of being decoded. -/
theorem c6_binary_classification (buf : List Nat) :
    (isBinary buf = true ↔ ∃ i, i < min buf.length 512 ∧ buf.get? i = some 0) ∧
    isBinary [] = false ∧
    (∀ (decode : String → List Nat → List String) (p : String) (s : PreviewState),
      s.previewPath = some p →
      (completePreviewOk decode p [] s).previewLines = decode p [] ∧
      (isBinary buf = true →
        (completePreviewOk decode p buf s).previewLines = ["", "  (binary file)"])) := by
  refine ⟨?_, rfl, ?_⟩
  · simp only [isBinary, List.any_eq_true, beq_iff_eq, List.mem_take_iff_getElem]
    constructor
    · rintro ⟨x, ⟨i, hi, hbi⟩, hx0⟩
      have hi2 := lt_inf_iff.mp hi
      refine ⟨i, lt_min_iff.mpr ⟨hi2.2, hi2.1⟩, ?_⟩
      rw [List.get?_eq_getElem?, List.getElem?_eq_getElem hi2.2, hbi, hx0]
    · rintro ⟨i, hi, h0⟩
      have hi2 := lt_min_iff.mp hi
      rw [List.get?_eq_getElem?, List.getElem?_eq_getElem hi2.1] at h0
      exact ⟨0, ⟨i, lt_inf_iff.mpr ⟨hi2.2, hi2.1⟩, by injection h0⟩, rfl⟩
  · intro decode p s hp
    constructor
    · simp [completePreviewOk, hp, isBinary]
    · intro hbin
      simp [completePreviewOk, hp, hbin]

/-- Witness for C6 at a buffer with a null byte at index 2 and a
concrete fresh preview state. -/
theorem c6_binary_classification_witness :
    isBinary [1, 2, 0, 3] = true ∧
    (completePreviewOk (fun _ _ => ["x"]) "a.ts" []
        ⟨some "a.ts", [], true, none, 0⟩).previewLines = ["x"] ∧
    (completePreviewOk (fun _ _ => ["x"]) "a.ts" [1, 2, 0, 3]
        ⟨some "a.ts", [], true, none, 0⟩).previewLines = ["", "  (binary file)"] := by
  refine ⟨?_, ?_, ?_⟩
  · exact (c6_binary_classification [1, 2, 0, 3]).1.mpr ⟨2, by decide, by decide⟩
  · exact ((c6_binary_classification [1, 2, 0, 3]).2.2 (fun _ _ => ["x"]) "a.ts"
      ⟨some "a.ts", [], true, none, 0⟩ rfl).1
  · exact ((c6_binary_classification [1, 2, 0, 3]).2.2 (fun _ _ => ["x"]) "a.ts"
      ⟨some "a.ts", [], true, none, 0⟩ rfl).2 (by decide)

/-- C9: for a non-empty result set of `T` entries, a positive list row
count `R` and a selected index `s` in `[0, T)`, the rendered window has
size `min(R, T)`, starts at `clamp(s - floor(window / 2), 0, T -
window)`, lies within `[0, T)` and contains the selected index. -/
theorem c9_list_window (R T : Nat) (s : Int) (hR : 0 < R) (hT : 0 < T)
    (hs0 : 0 ≤ s) (hsT : s < (T : Int)) :
    (listWindow R T s).1 = min (R : Int) (T : Int) ∧
    (listWindow R T s).2.1
      = max 0 (min (s - Int.fdiv (min (R : Int) (T : Int)) 2)
          ((T : Int) - min (R : Int) (T : Int))) ∧
    0 ≤ (listWindow R T s).2.1 ∧
    (listWindow R T s).2.2 = (listWindow R T s).2.1 + (listWindow R T s).1 ∧
    (listWindow R T s).2.2 ≤ (T : Int) ∧
    (listWindow R T s).2.1 ≤ s ∧ s < (listWindow R T s).2.2 := by
  have hfd : Int.fdiv (min (R : Int) (T : Int)) 2 = (min (R : Int) (T : Int)) / 2 :=
    Int.fdiv_eq_ediv _ (by norm_num)
  simp only [listWindow, hfd]
  refine ⟨?_, ?_, ?_, ?_, ?_, ?_, ?_⟩ <;> first | trivial | omega

/-- Witness for C9 at `R = 18`, `T = 5`, `s = 2`. -/
theorem c9_list_window_witness :
    (listWindow 18 5 2).1 = 5 ∧ (listWindow 18 5 2).2.1 = 0 ∧
    (listWindow 18 5 2).2.2 = 5 ∧
    (listWindow 18 5 2).2.1 ≤ 2 ∧ (2 : Int) < (listWindow 18 5 2).2.2 := by
  have h := c9_list_window 18 5 2 (by decide) (by decide) (by decide) (by decide)
  exact ⟨by decide, by decide, by decide, h.2.2.2.2.2.1, h.2.2.2.2.2.2⟩

/-- C1: a preview-read completion whose captured path no longer equals
the tracked preview path mutates no preview state; consequently after
selecting file A and then file B before A's read resolves, A's eventual
completion (success or error) leaves the state exactly as B's selection
left it, and B's completion installs B's content (or the binary
placeholder). -/
theorem c1_preview_staleness_guard
    (decode : String → List Nat → List String)
    (A B : FileItem) (bufA bufB : List Nat) (eA : ReadError) (s0 : PreviewState)
    (hA : A.isDirectory = false) (hB : B.isDirectory = false)
    (hAB : A.path ≠ B.path)
    (hA0 : some A.path ≠ s0.previewPath) :
    (∀ (p : String) (buf : List Nat) (e : ReadError) (s : PreviewState),
      s.previewPath ≠ some p →
      completePreviewOk decode p buf s = s ∧ completePreviewErr p e s = s) ∧
    completePreviewOk decode A.path bufA
        (loadPreviewStart (some B) (loadPreviewStart (some A) s0).1).1
      = (loadPreviewStart (some B) (loadPreviewStart (some A) s0).1).1 ∧
    completePreviewErr A.path eA
        (loadPreviewStart (some B) (loadPreviewStart (some A) s0).1).1
      = (loadPreviewStart (some B) (loadPreviewStart (some A) s0).1).1 ∧
    (completePreviewOk decode B.path bufB
        (loadPreviewStart (some B) (loadPreviewStart (some A) s0).1).1).previewPath
      = some B.path ∧
    (completePreviewOk decode B.path bufB
        (loadPreviewStart (some B) (loadPreviewStart (some A) s0).1).1).previewLines
      = (if isBinary bufB then ["", "  (binary file)"] else decode B.path bufB) := by
  set s1 : PreviewState := (loadPreviewStart (some A) s0).1 with hs1
  set s2 : PreviewState := (loadPreviewStart (some B) s1).1 with hs2
  have h1 : s1.previewPath = some A.path := by
    rw [hs1]
    simp only [loadPreviewStart, hA]
    rw [if_neg (by simp), if_neg hA0]
  have h2 : s2.previewPath = some B.path := by
    rw [hs2]
    simp only [loadPreviewStart, hB]
    rw [if_neg (by simp), if_neg (by rw [h1]; simpa using Ne.symm hAB)]
  have hstale : s2.previewPath ≠ some A.path := by
    rw [h2]
    simpa using Ne.symm hAB
  refine ⟨?_, ?_, ?_, ?_, ?_⟩
  · intro p buf e s h
    constructor
    · simp [completePreviewOk, h]
    · simp [completePreviewErr, h]
  · simp [completePreviewOk, hstale]
  · simp [completePreviewErr, hstale]
  · rw [completePreviewOk, if_neg (by rw [h2]; simp)]
    split <;> simpa using h2
  · rw [completePreviewOk, if_neg (by rw [h2]; simp)]
    split <;> simp

/-- Witness for C1: files `a.ts` and `b.ts`, starting from the initial
(empty) preview state; the stale success and error completions of `a.ts`
are no-ops and `b.ts`'s completion installs its decoded content. -/
theorem c1_preview_staleness_guard_witness :
    completePreviewOk (fun _ _ => ["x"]) "a.ts" [0]
        (loadPreviewStart (some ⟨"b.ts", "b.ts", ".", false⟩)
          (loadPreviewStart (some ⟨"a.ts", "a.ts", ".", false⟩)
            ⟨none, [], false, none, 0⟩).1).1
      = (loadPreviewStart (some ⟨"b.ts", "b.ts", ".", false⟩)
          (loadPreviewStart (some ⟨"a.ts", "a.ts", ".", false⟩)
            ⟨none, [], false, none, 0⟩).1).1 ∧
    (completePreviewOk (fun _ _ => ["x"]) "b.ts" [1]
        (loadPreviewStart (some ⟨"b.ts", "b.ts", ".", false⟩)
          (loadPreviewStart (some ⟨"a.ts", "a.ts", ".", false⟩)
            ⟨none, [], false, none, 0⟩).1).1).previewLines = ["x"] := by
  have h := c1_preview_staleness_guard (fun _ _ => ["x"])
    ⟨"a.ts", "a.ts", ".", false⟩ ⟨"b.ts", "b.ts", ".", false⟩ [0] [1]
    ReadError.tooLarge ⟨none, [], false, none, 0⟩
    rfl rfl (by decide) (by decide)
  exact ⟨h.2.1, by rw [h.2.2.2.2]; decide⟩

/-- `moveSelection` never changes the result list. -/
theorem moveSelection_results (d : Int) (s : OverlayState) :
    (moveSelection d s).results = s.results := by
  unfold moveSelection
  split <;> rfl

/-- A single ±1 move keeps the selected index inside `[0, N)`. -/
theorem moveSelection_bounds (d : Int) (s : OverlayState)
    (hd : d = 1 ∨ d = -1) (h1 : 0 < s.results.length)
    (h2 : 0 ≤ s.selectedIndex) (h3 : s.selectedIndex < (s.results.length : Int)) :
    0 ≤ (moveSelection d s).selectedIndex ∧
    (moveSelection d s).selectedIndex < (s.results.length : Int) := by
  have hn : (0 : Int) < (s.results.length : Int) := by exact_mod_cast h1
  have hnum : 0 ≤ s.selectedIndex + d + (s.results.length : Int) := by
    rcases hd with rfl | rfl <;> omega
  unfold moveSelection
  rw [if_neg (by omega)]
  dsimp only
  rw [Int.tmod_eq_emod hnum (by omega)]
  exact ⟨Int.emod_nonneg _ (by omega), Int.emod_lt_of_pos _ hn⟩

/-- C3: any finite sequence of ±1 selection moves starting inside
`[0, N)` over a non-empty result set of size `N` ends inside `[0, N)`
(moves wrap modulo `N`); over an empty result set the moves change
nothing. -/
theorem c3_selection_bounds (s : OverlayState) (moves : List Int)
    (hmoves : ∀ d ∈ moves, d = 1 ∨ d = -1) :
    (0 < s.results.length → 0 ≤ s.selectedIndex →
      s.selectedIndex < (s.results.length : Int) →
      0 ≤ (moves.foldl (fun st d => moveSelection d st) s).selectedIndex ∧
      (moves.foldl (fun st d => moveSelection d st) s).selectedIndex
        < (s.results.length : Int)) ∧
    (s.results = [] → moves.foldl (fun st d => moveSelection d st) s = s) := by
  induction moves generalizing s with
  | nil => exact ⟨fun _ h2 h3 => ⟨h2, h3⟩, fun _ => rfl⟩
  | cons d ds ih =>
    constructor
    · intro h1 h2 h3
      have hd := hmoves d (List.mem_cons_self d ds)
      have hstep := moveSelection_bounds d s hd h1 h2 h3
      have hres := moveSelection_results d s
      have htail := (ih (moveSelection d s)
        (fun x hx => hmoves x (List.mem_cons_of_mem d hx))).1
      rw [hres] at htail
      simp only [List.foldl_cons]
      exact htail h1 hstep.1 hstep.2
    · intro h
      have hm : moveSelection d s = s := by simp [moveSelection, h]
      simp only [List.foldl_cons, hm]
      exact (ih s (fun x hx => hmoves x (List.mem_cons_of_mem d hx))).2 h

/-- Witness for C3: five ±1 moves over a three-entry result set starting
at index 0 end inside `[0, 3)`. -/
theorem c3_selection_bounds_witness :
    0 ≤ (([1, 1, -1, 1, 1] : List Int).foldl (fun st d => moveSelection d st)
        ⟨[⟨"a", "a", ".", false⟩, ⟨"b", "b", ".", false⟩, ⟨"c", "c", ".", false⟩],
          0, false, none, 0⟩).selectedIndex ∧
    (([1, 1, -1, 1, 1] : List Int).foldl (fun st d => moveSelection d st)
        ⟨[⟨"a", "a", ".", false⟩, ⟨"b", "b", ".", false⟩, ⟨"c", "c", ".", false⟩],
          0, false, none, 0⟩).selectedIndex < (3 : Int) :=
  (c3_selection_bounds
    ⟨[⟨"a", "a", ".", false⟩, ⟨"b", "b", ".", false⟩, ⟨"c", "c", ".", false⟩],
      0, false, none, 0⟩
    [1, 1, -1, 1, 1] (by decide)).1 (by decide) (by decide) (by decide)

/-- Once `done` is set, further `"line"` events are ignored. -/
theorem foldl_onLine_done (input : List String) (s : CollectState) (h : s.done = true) :
    input.foldl onLine s = s := by
  induction input generalizing s with
  | nil => rfl
  | cons l ls ih =>
    simp only [List.foldl_cons]
    rw [show onLine s l = s by simp [onLine, h]]
    exact ih s h

/-- Invariant of the `"line"` handler, generalized over the lines
already collected: the collected lines are the accumulator followed by
the first `MAX_RESULTS - acc.length` non-empty input lines, and
`kill()` has run (on both stages) exactly when that many non-empty lines
were available. -/
theorem foldl_onLine_spec (input : List String) (acc : List String)
    (h : acc.length < MAX_RESULTS) :
    (input.foldl onLine ⟨acc, false, false, false⟩).lines
      = acc ++ (input.filter (fun l => !(l == ""))).take (MAX_RESULTS - acc.length) ∧
    ((input.foldl onLine ⟨acc, false, false, false⟩).fdKilled = true
      ↔ MAX_RESULTS - acc.length ≤ (input.filter (fun l => !(l == ""))).length) ∧
    (input.foldl onLine ⟨acc, false, false, false⟩).fzfKilled
      = (input.foldl onLine ⟨acc, false, false, false⟩).fdKilled := by
  induction input generalizing acc with
  | nil =>
    refine ⟨by simp, ?_, rfl⟩
    simp only [List.foldl_nil, List.filter_nil, List.length_nil]
    constructor
    · intro hfd
      exact absurd hfd (by simp)
    · intro hle
      exact absurd hle (by omega)
  | cons l ls ih =>
    by_cases hl : l = ""
    · subst hl
      have hskip : onLine ⟨acc, false, false, false⟩ "" = ⟨acc, false, false, false⟩ := by
        simp [onLine]
      have hfc : ("" :: ls).filter (fun x => !(x == "")) = ls.filter (fun x => !(x == "")) := by
        simp
      rw [List.foldl_cons, hskip, hfc]
      exact ih acc h
    · have hfc : (l :: ls).filter (fun x => !(x == ""))
          = l :: ls.filter (fun x => !(x == "")) := by
        simp [hl]
      have hlapp : (acc ++ [l]).length = acc.length + 1 := by simp
      by_cases hfull : MAX_RESULTS ≤ (acc ++ [l]).length
      · have hstep : onLine ⟨acc, false, false, false⟩ l
            = ⟨acc ++ [l], true, true, true⟩ := by
          simp only [onLine]
          rw [if_neg (by simp [hl]), if_pos hfull]
        have htake : MAX_RESULTS - acc.length = 1 := by omega
        rw [List.foldl_cons, hstep,
          foldl_onLine_done ls ⟨acc ++ [l], true, true, true⟩ rfl, hfc]
        refine ⟨?_, ?_, rfl⟩
        · rw [htake]
          rfl
        · rw [htake]
          constructor
          · intro _
            simp only [List.length_cons]
            omega
          · intro _
            rfl
      · have hstep : onLine ⟨acc, false, false, false⟩ l
            = ⟨acc ++ [l], false, false, false⟩ := by
          simp only [onLine]
          rw [if_neg (by simp [hl]), if_neg hfull]
        have hlen : (acc ++ [l]).length < MAX_RESULTS := by omega
        have ihl := ih (acc ++ [l]) hlen
        have htake : MAX_RESULTS - acc.length
            = (MAX_RESULTS - (acc ++ [l]).length) + 1 := by omega
        rw [List.foldl_cons, hstep, hfc]
        refine ⟨?_, ?_, ihl.2.2⟩
        · rw [ihl.1, htake, List.take_succ_cons, List.append_assoc]
          rfl
        · rw [ihl.2.1, htake]
          simp only [List.length_cons]
          constructor <;> (intro hx; omega)

/-- The lines `runSearch` resolves with are the first `MAX_RESULTS`
non-empty lines of its input stream, in order. -/
theorem collectRun_lines (input : List String) :
    (collectRun input).lines
      = (input.filter (fun l => !(l == ""))).take MAX_RESULTS := by
  have := (foldl_onLine_spec input [] (by norm_num [MAX_RESULTS])).1
  simpa [collectRun, collectInit] using this

/-- The collected line count never exceeds `MAX_RESULTS`. -/
theorem collectRun_length_le (input : List String) :
    (collectRun input).lines.length ≤ MAX_RESULTS := by
  rw [collectRun_lines]
  calc ((input.filter (fun l => !(l == ""))).take MAX_RESULTS).length
      ≤ MAX_RESULTS := by
        rw [List.length_take]
        exact min_le_left _ _

/-- C8: the result sequence delivered to the overlay is the first
`MAX_RESULTS` (200) non-empty backend lines in backend output order —
an ordered sublist of the stream, never more than 200 entries — and
`kill()` terminates both pipeline stages exactly when 200 results have
been collected before the stream ends; every successful `runSearch`
outcome, for any query, respects the cap. -/
theorem c8_result_cap (input : List String) :
    (collectRun input).lines
      = (input.filter (fun l => !(l == ""))).take MAX_RESULTS ∧
    (collectRun input).lines.length ≤ MAX_RESULTS ∧
    ((collectRun input).fdKilled = true ↔
      MAX_RESULTS ≤ (input.filter (fun l => !(l == ""))).length) ∧
    (collectRun input).fzfKilled = (collectRun input).fdKilled ∧
    (collectRun input).lines.Sublist input ∧
    (∀ (fdPresent fzfPresent : Bool) (query : String) (fdOutput : List String)
        (fzfFilter : String → List String → List String) (res : List String),
      runSearchOutcome fdPresent fzfPresent query fdOutput fzfFilter
          = Except.ok res →
      res.length ≤ MAX_RESULTS) := by
  have hspec := foldl_onLine_spec input [] (by norm_num [MAX_RESULTS])
  refine ⟨collectRun_lines input, collectRun_length_le input, ?_, ?_, ?_, ?_⟩
  · have := hspec.2.1
    simpa [collectRun, collectInit] using this
  · have := hspec.2.2
    simpa [collectRun, collectInit] using this
  · rw [collectRun_lines]
    exact (List.take_sublist _ _).trans (List.filter_sublist input)
  · intro fdPresent fzfPresent query fdOutput fzfFilter res hres
    unfold runSearchOutcome at hres
    split at hres
    · split at hres
      · cases hres
        exact collectRun_length_le _
      · exact absurd hres (by simp)
    · split at hres
      · exact absurd hres (by simp)
      · split at hres
        · cases hres
          exact collectRun_length_le _
        · cases hres
          exact collectRun_length_le _

/-- Witness for C8 at a 300-line stream: exactly 200 lines are kept and
the pipeline is killed early. -/
theorem c8_result_cap_witness :
    (collectRun (List.replicate 300 "x")).lines.length ≤ MAX_RESULTS ∧
    (collectRun (List.replicate 300 "x")).fdKilled = true ∧
    (collectRun (List.replicate 300 "x")).fzfKilled
      = (collectRun (List.replicate 300 "x")).fdKilled := by
  refine ⟨(c8_result_cap (List.replicate 300 "x")).2.1, ?_,
    (c8_result_cap (List.replicate 300 "x")).2.2.2.1⟩
  refine ((c8_result_cap (List.replicate 300 "x")).2.2.1).mpr ?_
  have hfr : (List.replicate 300 "x").filter (fun x => !(x == ""))
      = List.replicate 300 "x" := by
    rw [List.filter_replicate]
    simp
  rw [hfr, List.length_replicate]
  norm_num [MAX_RESULTS]

/-- A generic `Error: ...` message is never the tooling message: the two
start with different characters. -/
theorem errorString_ne_tooling (m : String) :
    "Error: " ++ m ≠ "fd/fzf not found -- install both" := by
  intro h
  have h2 := congrArg String.data h
  rw [String.data_append] at h2
  have h3 : some 'E' = some 'f' := by
    calc some 'E' = ("Error: ".data ++ m.data).head? := rfl
    _ = "fd/fzf not found -- install both".data.head? := by rw [h2]
    _ = some 'f' := rfl
  exact absurd h3 (by decide)

/-- C4 counterexample: with the listing backend (`fd`) absent from the
execution path, the filter backend (`fzf`) present and the non-empty
query `"a"`, `runSearch` resolves with a normal empty result set — the
run does not fail and no "tooling not installed" message is surfaced,
contradicting the claim for non-empty queries. -/
theorem c4_missing_tooling_counterexample :
    runSearchOutcome false true "a" ["src/main.ts"] (fun _ ls => ls)
      = Except.ok [] := rfl

/-- C4 amended: a missing listing backend makes the run fail — and the
overlay then shows the distinct `fd/fzf not found -- install both`
message, which no generic `Error: ...` message equals — when the query
is empty, or when the filter backend is absent as well; but for a
non-empty query with the filter backend present, the missing listing
backend only empties the filter's input and the run resolves normally
with the filter's output on an empty stream. -/
theorem c4_missing_tooling_amended (query : String) (fdOutput : List String)
    (fzfFilter : String → List String → List String) (t : Nat) (s : OverlayState) :
    (query = "" →
      runSearchOutcome false true query fdOutput fzfFilter
        = Except.error "spawn fd ENOENT" ∧
      runSearchOutcome false false query fdOutput fzfFilter
        = Except.error "spawn fd ENOENT") ∧
    (query ≠ "" →
      runSearchOutcome false false query fdOutput fzfFilter
        = Except.error "spawn fzf ENOENT") ∧
    (query ≠ "" →
      runSearchOutcome false true query fdOutput fzfFilter
        = Except.ok (collectRun (fzfFilter query [])).lines) ∧
    searchErrorMessage "spawn fd ENOENT" = "fd/fzf not found -- install both" ∧
    searchErrorMessage "spawn fzf ENOENT" = "fd/fzf not found -- install both" ∧
    (tokenAborted s t = false →
      (searchCatchStep t "spawn fd ENOENT" s).error
        = some "fd/fzf not found -- install both") ∧
    (∀ m, strIncludes m "ENOENT" = false →
      searchErrorMessage m = "Error: " ++ m ∧
      searchErrorMessage m ≠ "fd/fzf not found -- install both") := by
  refine ⟨?_, ?_, ?_, by decide, by decide, ?_, ?_⟩
  · intro hq
    subst hq
    exact ⟨rfl, rfl⟩
  · intro hq
    simp [runSearchOutcome, hq]
  · intro hq
    simp [runSearchOutcome, hq]
  · intro ht
    simp [searchCatchStep, ht]
    decide
  · intro m hm
    have hmsg : searchErrorMessage m = "Error: " ++ m := by
      simp only [searchErrorMessage, hm]
      simp
    exact ⟨hmsg, hmsg ▸ errorString_ne_tooling m⟩

/-- Witness for C4's amended claim: the empty query and the query `"a"`
with both backends absent reject and map to the tooling message; the
message for an unrelated failure stays generic; a live catch callback
installs the tooling message. -/
theorem c4_missing_tooling_amended_witness :
    runSearchOutcome false true "" ["f"] (fun _ ls => ls)
      = Except.error "spawn fd ENOENT" ∧
    runSearchOutcome false false "a" ["f"] (fun _ ls => ls)
      = Except.error "spawn fzf ENOENT" ∧
    searchErrorMessage "spawn fd ENOENT" = "fd/fzf not found -- install both" ∧
    (searchCatchStep 5 "spawn fd ENOENT" ⟨[], 0, true, none, 5⟩).error
      = some "fd/fzf not found -- install both" ∧
    searchErrorMessage "boom" = "Error: " ++ "boom" := by
  refine ⟨?_, ?_, ?_, ?_, ?_⟩
  · exact ((c4_missing_tooling_amended "" ["f"] (fun _ ls => ls) 5
      ⟨[], 0, true, none, 5⟩).1 rfl).1
  · exact (c4_missing_tooling_amended "a" ["f"] (fun _ ls => ls) 5
      ⟨[], 0, true, none, 5⟩).2.1 (by decide)
  · exact (c4_missing_tooling_amended "a" ["f"] (fun _ ls => ls) 5
      ⟨[], 0, true, none, 5⟩).2.2.2.1
  · exact (c4_missing_tooling_amended "a" ["f"] (fun _ ls => ls) 5
      ⟨[], 0, true, none, 5⟩).2.2.2.2.2.1 (by decide)
  · exact ((c4_missing_tooling_amended "a" ["f"] (fun _ ls => ls) 5
      ⟨[], 0, true, none, 5⟩).2.2.2.2.2.2 "boom" (by decide)).1

end FilePicker
